import Mathlib

set_option maxRecDepth 100000

/-
  A verification development for the Nachos TP2 file system layer
  (`code/filesys/filesys.cc`).

  The `FileSystem` orchestration code is embedded directly from
  `filesys.cc`.  Its collaborators — the free-sector bitmap, the
  per-file header, the directory records, the raw block device and
  the system constants — live in files that are not part of the
  sources at hand (`bitmap.cc`, `filehdr.cc`, `directory.cc`,
  `disk.h`, `filesys.h`); those are modelled from the specification,
  as marked on each definition.

  Persisted state is modelled at the structure level: the device
  holds the bitmap file's contents, each directory's contents (keyed
  by the sector of the directory's file header) and each file header
  (keyed by its sector).  Mutating operations of the controller
  return, besides their boolean result and the post state, the list
  of structure writes they issued, in order; an operation that fails
  issues no writes.
-/

/-- Modelled from the spec: `SectorSize` is a fixed system constant of the
block device (`disk.h` is not among the sources); the reference system's
value is used. -/
def SectorSize : Nat := 128

/-- Modelled from the spec: `NumSectors` is a fixed system constant of the
block device (`disk.h` is not among the sources); the reference system's
value is used. -/
def NumSectors : Nat := 1024

/-- `BitsInByte`, used by `FreeMapFileSize` in `filesys.cc`. -/
def BitsInByte : Nat := 8

/-- Sector of the free-map file header (`filesys.cc` line 58). -/
def FreeMapSector : Nat := 0

/-- Sector of the root-directory file header (`filesys.cc` line 59). -/
def DirectorySector : Nat := 1

/-- `FreeMapFileSize = NumSectors / BitsInByte` (`filesys.cc` line 64). -/
def FreeMapFileSize : Nat := NumSectors / BitsInByte

/-- `NumDirEntries = 10` (`filesys.cc` line 65). -/
def NumDirEntries : Nat := 10

/-- Modelled from the spec: the byte size of one `DirectoryEntry` record
(`directory.h` is not among the sources).  Its exact value only scales the
size of a directory's backing file; a representative value is fixed. -/
def sizeofDirectoryEntry : Nat := 20

/-- `DirectoryFileSize = sizeof(DirectoryEntry) * NumDirEntries`
(`filesys.cc` line 66). -/
def DirectoryFileSize : Nat := sizeofDirectoryEntry * NumDirEntries

/-- Modelled from the spec: the fixed capacity of a file header's sector
list (`filehdr.h` is not among the sources); the reference system's layout
`(SectorSize - 2 * sizeof(int)) / sizeof(int)` is used. -/
def NumDirect : Nat := (SectorSize - 8) / 4

/-- Modelled from the spec: the hard ceiling on a file's byte length
(~3KB in the reference system), `NumDirect * SectorSize`. -/
def MaxFileSize : Nat := NumDirect * SectorSize

/-- Modelled from the spec: the bound of the open-file table
(`filesys.h` is not among the sources).  The spec fixes no value; any
positive bound works, a representative value is fixed. -/
def MAX_OPEN_FILES : Nat := 10

/-- The invalid-handle sentinel returned by `Open` on failure.
Modelled from the spec: handles are small integers, the sentinel is
outside the valid range `0 ≤ h < MAX_OPEN_FILES`. -/
def INVALID_FILE_HANDLE : Int := -1

/-! ## BlockAllocator (class `BitMap`)

Modelled from the spec, §4.1: `bitmap.cc` is not among the sources.
One bit per sector, `true` = in use; `Find` returns the first unused
sector and reserves it (the spec's `Create` path says "allocate a
header sector via BlockAllocator", and `FileIndex.Allocate` "marks
each chosen sector used in the allocator").  `Find`'s C++ failure
value `-1` is rendered as `none`. -/

structure BitMap where
  bits : List Bool
deriving DecidableEq, Repr

/-- `BitMap::Mark`: reserve a sector. -/
def BitMap.Mark (b : BitMap) (s : Nat) : BitMap := ⟨b.bits.set s true⟩

/-- `BitMap::Clear`: free a sector. -/
def BitMap.Clear (b : BitMap) (s : Nat) : BitMap := ⟨b.bits.set s false⟩

/-- `BitMap::Test`: is the sector marked? -/
def BitMap.Test (b : BitMap) (s : Nat) : Bool := b.bits.getD s false

/-- Index of the first clear bit of a bit list, if any. -/
def firstClear : List Bool → Option Nat
  | [] => none
  | false :: _ => some 0
  | true :: rest => (firstClear rest).map (fun i => i + 1)

/-- `BitMap::Find`: first unused sector, reserved as a side effect;
`none` when every sector is in use. -/
def BitMap.Find (b : BitMap) : Option (Nat × BitMap) :=
  match firstClear b.bits with
  | none => none
  | some i => some (i, b.Mark i)

/-- Repeated `BitMap::Find`, collecting the chosen sectors in order. -/
def BitMap.FindList (b : BitMap) : Nat → Option (List Nat × BitMap)
  | 0 => some ([], b)
  | Nat.succ n =>
    match b.Find with
    | none => none
    | some (i, b1) =>
      match b1.FindList n with
      | none => none
      | some (l, b2) => some (i :: l, b2)

/-- Clear every sector of the list, in list order (the loop of
`FileHeader::Deallocate`). -/
def BitMap.ClearList (b : BitMap) (l : List Nat) : BitMap :=
  l.foldl (fun bm s => bm.Clear s) b

/-! ## DirectoryService (class `Directory`)

Modelled from the spec, §4.3: `directory.cc` is not among the sources.
A fixed table of `NumDirEntries` slots; `Find` scans active entries
for an exact name match (C++ `-1` rendered as `none`); `Add` fails on
a duplicate name or a full table and fills the first free slot;
`Remove` marks the matching entry inactive. -/

inductive EntryType where
  | FILE_TYPE
  | DIR_TYPE
deriving DecidableEq, Repr

structure DirectoryEntry where
  inUse : Bool
  name : String
  sector : Nat
  type : EntryType
deriving DecidableEq, Repr

structure Directory where
  entries : List DirectoryEntry
deriving DecidableEq, Repr

/-- A fresh `Directory(NumDirEntries)`: every slot inactive. -/
def Directory.empty : Directory :=
  ⟨List.replicate NumDirEntries ⟨false, "", 0, EntryType.FILE_TYPE⟩⟩

/-- First active entry carrying the name, if any (`Directory::FindIndex`). -/
def findEntryAux (n : String) : List DirectoryEntry → Option DirectoryEntry
  | [] => none
  | e :: rest => if e.inUse = true ∧ e.name = n then some e else findEntryAux n rest

/-- The entry `Directory::Find` / `Directory::GetEntryType` read. -/
def Directory.FindEntry (d : Directory) (n : String) : Option DirectoryEntry :=
  findEntryAux n d.entries

/-- `Directory::Find`: sector of the named entry. -/
def Directory.Find (d : Directory) (n : String) : Option Nat :=
  (d.FindEntry n).map (fun e => e.sector)

/-- `Directory::GetEntryType`. -/
def Directory.GetEntryType (d : Directory) (n : String) : Option EntryType :=
  (d.FindEntry n).map (fun e => e.type)

/-- Fill the first inactive slot; `none` when the table is full. -/
def addAux (n : String) (s : Nat) (t : EntryType) :
    List DirectoryEntry → Option (List DirectoryEntry)
  | [] => none
  | e :: rest =>
    if e.inUse = true then (addAux n s t rest).map (fun l => e :: l)
    else some (⟨true, n, s, t⟩ :: rest)

/-- `Directory::Add`: fails if the name is present or no slot is free. -/
def Directory.Add (d : Directory) (n : String) (s : Nat) (t : EntryType) :
    Bool × Directory :=
  match d.FindEntry n with
  | some _ => (false, d)
  | none =>
    match addAux n s t d.entries with
    | none => (false, d)
    | some es => (true, ⟨es⟩)

/-- Mark the matching entry inactive; `none` when the name is absent. -/
def removeAux (n : String) : List DirectoryEntry → Option (List DirectoryEntry)
  | [] => none
  | e :: rest =>
    if e.inUse = true ∧ e.name = n then some ({ e with inUse := false } :: rest)
    else (removeAux n rest).map (fun l => e :: l)

/-- `Directory::Remove`. -/
def Directory.Remove (d : Directory) (n : String) : Bool × Directory :=
  match removeAux n d.entries with
  | none => (false, d)
  | some es => (true, ⟨es⟩)

/-- The active entries of a directory, in slot order. -/
def Directory.activeEntries (d : Directory) : List DirectoryEntry :=
  d.entries.filter (fun e => e.inUse)

/-! ## FileIndex (class `FileHeader`)

Modelled from the spec, §4.2: `filehdr.cc` is not among the sources.
`Allocate` computes `ceil(numBytes / SectorSize)`, fails when the
request exceeds the representable maximum or free sectors are
insufficient, and otherwise marks each chosen sector and records the
list; `Deallocate` clears every recorded sector. -/

structure FileHeader where
  numBytes : Nat
  dataSectors : List Nat
deriving DecidableEq, Repr

def divRoundUp (a b : Nat) : Nat := (a + b - 1) / b

/-- `FileHeader::Allocate` (on a fresh header): `none` on failure, in
which case the caller discards the in-memory bitmap copy. -/
def FileHeader.Allocate (freeMap : BitMap) (fileSize : Nat) :
    Option (FileHeader × BitMap) :=
  if MaxFileSize < fileSize then none
  else
    match freeMap.FindList (divRoundUp fileSize SectorSize) with
    | none => none
    | some (l, fm) => some (⟨fileSize, l⟩, fm)

/-- `FileHeader::Deallocate`: clear every recorded data sector. -/
def FileHeader.Deallocate (hdr : FileHeader) (freeMap : BitMap) : BitMap :=
  freeMap.ClearList hdr.dataSectors

/-! ## The persisted state and the write trace

Modelled from the spec, §1/§6: byte-level serialization is out of
scope; the device state is kept per structure.  Directories and file
headers are keyed by the sector of the (file's) header; the bitmap
file is a single well-known structure. -/

inductive WriteEvent where
  | hdr (sector : Nat) (contents : FileHeader)
  | dir (sector : Nat) (contents : Directory)
  | fmap (contents : BitMap)
deriving DecidableEq, Repr

structure Disk where
  fmap : BitMap
  dirs : List (Nat × Directory)
  hdrs : List (Nat × FileHeader)
deriving DecidableEq, Repr

/-- First binding of the key in an association list. -/
def lookupA {α : Type} : List (Nat × α) → Nat → Option α
  | [], _ => none
  | p :: rest, s => if p.1 = s then some p.2 else lookupA rest s

/-- Directory contents fetched through the header at sector `s`
(`Directory::FetchFrom(new OpenFile(s))`). -/
def Disk.getDir (d : Disk) (s : Nat) : Directory :=
  (lookupA d.dirs s).getD Directory.empty

/-- File header fetched from sector `s` (`FileHeader::FetchFrom`). -/
def Disk.getHdr (d : Disk) (s : Nat) : FileHeader :=
  (lookupA d.hdrs s).getD ⟨0, []⟩

/-- Apply one persisted write. -/
def Disk.applyEvent (d : Disk) : WriteEvent → Disk
  | WriteEvent.hdr s h => { d with hdrs := (s, h) :: d.hdrs }
  | WriteEvent.dir s c => { d with dirs := (s, c) :: d.dirs }
  | WriteEvent.fmap b => { d with fmap := b }

/-- Apply a trace of writes, oldest first. -/
def Disk.applyEvents (d : Disk) (l : List WriteEvent) : Disk :=
  l.foldl Disk.applyEvent d

/-- A blank, freshly formatted-ready device: all sectors clear, no
structure ever written. -/
def Disk.blank : Disk := ⟨⟨List.replicate NumSectors false⟩, [], []⟩

/-! ## OpenFileTable and the FileSystem controller

The controller is embedded from `filesys.cc` itself.  A table slot
records the observable fields of `filesys.cc`'s `openFilesTable[i]`:
`inUse`, whether `openFile` is the null pointer, `sector`, `filename`
and `currentPosition`.  The byte-moving I/O object (`class OpenFile`,
not among the sources) is an external collaborator per the spec; the
number of bytes a delegated call transfers enters each read/write
operation as the abstract argument `ioBytes`, and buffers appear only
through their nullness. -/

structure OpenFileSlot where
  inUse : Bool
  openFileNull : Bool
  sector : Int
  filename : String
  currentPosition : Int
deriving DecidableEq, Repr

/-- The slot state `InitializeOpenFilesTable` installs
(`filesys.cc` lines 157–166). -/
def blankSlot : OpenFileSlot := ⟨false, true, -1, "", 0⟩

/-- Replace slot `i` of the table, when it exists. -/
def updateSlot (tbl : List OpenFileSlot) (i : Nat)
    (f : OpenFileSlot → OpenFileSlot) : List OpenFileSlot :=
  match tbl[i]? with
  | some s => tbl.set i (f s)
  | none => tbl

/-- Index of the first in-use slot carrying the sector (the scan of
`FileSystem::Open`, lines 663–670). -/
def findOpenIdx (s : Int) : List OpenFileSlot → Option Nat
  | [] => none
  | e :: rest =>
    if e.inUse = true ∧ e.sector = s then some 0
    else (findOpenIdx s rest).map (fun i => i + 1)

/-- Index of the first free slot (`FileSystem::FindFreeSlot`,
lines 168–176); `none` renders the C++ `INVALID_FILE_HANDLE`. -/
def findFreeIdx : List OpenFileSlot → Option Nat
  | [] => none
  | e :: rest =>
    if e.inUse = true then (findFreeIdx rest).map (fun i => i + 1)
    else some 0

/-- The controller state: the persisted device, the open-file table,
and the execution context's current-directory sector
(`currentThread->GetCurrentDirectory()`). -/
structure FileSystem where
  disk : Disk
  openFilesTable : List OpenFileSlot
  curDir : Nat
deriving DecidableEq, Repr

/-- `FileSystem::FileSystem(format)` (lines 81–154).  With
`format = true` it marks the two bootstrap sectors, allocates the two
well-known headers, writes them, writes the root directory (once
empty, then seeded with "." and ".."), and writes the bitmap; either
way it sets the context's current directory to `DirectorySector`.
The two `ASSERT`ed allocations cannot fail on a blank device; the
fallback arms keep the function total. -/
def FileSystem.boot (format : Bool) (d : Disk) : FileSystem :=
  let table := List.replicate MAX_OPEN_FILES blankSlot
  if format then
    let freeMap : BitMap := ⟨List.replicate NumSectors false⟩
    let directory : Directory := Directory.empty
    let freeMap := (freeMap.Mark FreeMapSector).Mark DirectorySector
    match FileHeader.Allocate freeMap FreeMapFileSize with
    | none => ⟨d, table, DirectorySector⟩
    | some (mapHdr, freeMap1) =>
      match FileHeader.Allocate freeMap1 DirectoryFileSize with
      | none => ⟨d, table, DirectorySector⟩
      | some (dirHdr, freeMap2) =>
        let d1 := ((d.applyEvent (WriteEvent.hdr FreeMapSector mapHdr)).applyEvent
            (WriteEvent.hdr DirectorySector dirHdr)).applyEvent
            (WriteEvent.dir DirectorySector directory)
        let directory1 := (directory.Add "." DirectorySector EntryType.DIR_TYPE).2
        let directory2 := (directory1.Add ".." DirectorySector EntryType.DIR_TYPE).2
        let d2 := (d1.applyEvent (WriteEvent.fmap freeMap2)).applyEvent
            (WriteEvent.dir DirectorySector directory2)
        ⟨d2, table, DirectorySector⟩
  else ⟨d, table, DirectorySector⟩

/-- `FileSystem::IsValidHandle` (lines 179–184). -/
def FileSystem.IsValidHandle (fs : FileSystem) (handle : Int) : Bool :=
  if 0 ≤ handle ∧ handle < (MAX_OPEN_FILES : Int) then
    match fs.openFilesTable[handle.toNat]? with
    | some slot => slot.inUse && !slot.openFileNull
    | none => false
  else false

/-- `FileSystem::Read` (lines 199–217): validate, delegate, advance
the slot's cursor by the bytes transferred. -/
def FileSystem.Read (fs : FileSystem) (file : Int) (bufNull : Bool)
    (numBytes ioBytes : Int) : Int × FileSystem :=
  if fs.IsValidHandle file = false then (0, fs)
  else if bufNull then (0, fs)
  else
    let tbl := updateSlot fs.openFilesTable file.toNat
      (fun s => { s with currentPosition := s.currentPosition + ioBytes })
    (ioBytes, { fs with openFilesTable := tbl })

/-- `FileSystem::Write` (lines 219–232). -/
def FileSystem.Write (fs : FileSystem) (file : Int) (bufNull : Bool)
    (numBytes ioBytes : Int) : Int × FileSystem :=
  if fs.IsValidHandle file = false then (0, fs)
  else if bufNull then (0, fs)
  else
    let tbl := updateSlot fs.openFilesTable file.toNat
      (fun s => { s with currentPosition := s.currentPosition + ioBytes })
    (ioBytes, { fs with openFilesTable := tbl })

/-- `FileSystem::ReadAt` (lines 234–254): positional read, yet it also
adds the bytes read to the slot's `currentPosition` (line 246). -/
def FileSystem.ReadAt (fs : FileSystem) (file : Int) (bufNull : Bool)
    (numBytes position ioBytes : Int) : Int × FileSystem :=
  if fs.IsValidHandle file = false then (0, fs)
  else if bufNull then (0, fs)
  else
    let tbl := updateSlot fs.openFilesTable file.toNat
      (fun s => { s with currentPosition := s.currentPosition + ioBytes })
    (ioBytes, { fs with openFilesTable := tbl })

/-- `FileSystem::WriteAt` (lines 256–274): positional write; the table
slot is not touched. -/
def FileSystem.WriteAt (fs : FileSystem) (file : Int) (bufNull : Bool)
    (numBytes position ioBytes : Int) : Int × FileSystem :=
  if fs.IsValidHandle file = false then (0, fs)
  else if bufNull then (0, fs)
  else (ioBytes, fs)

/-- `FileSystem::ChangeDirectory` (lines 328–394).  A null name is
rendered as `none`. -/
def FileSystem.ChangeDirectory (fs : FileSystem) (name : Option String) :
    Bool × FileSystem :=
  match name with
  | none => (false, fs)
  | some n =>
    if n = "" then (false, fs)
    else if NumSectors ≤ fs.curDir then (false, fs)
    else
      let currentDirectory := fs.disk.getDir fs.curDir
      match currentDirectory.FindEntry n with
      | none => (false, fs)
      | some e =>
        if e.type ≠ EntryType.DIR_TYPE then (false, fs)
        else if e.sector < NumSectors then (true, { fs with curDir := e.sector })
        else (false, fs)

/-- `FileSystem::CreateDirectory` (lines 398–486).  The parent entry
is staged, the header allocated, then — only on success — the new
directory's header and contents, the parent directory and the bitmap
are written, in that order. -/
def FileSystem.CreateDirectory (fs : FileSystem) (name : String) :
    Bool × FileSystem × List WriteEvent :=
  let parentSector := fs.curDir
  let parentDirectory := fs.disk.getDir parentSector
  match parentDirectory.FindEntry name with
  | some _ => (false, fs, [])
  | none =>
    match fs.disk.fmap.Find with
    | none => (false, fs, [])
    | some (sector, freeMap1) =>
      match parentDirectory.Add name sector EntryType.DIR_TYPE with
      | (false, _) => (false, fs, [])
      | (true, parentDirectory1) =>
        match FileHeader.Allocate freeMap1 DirectoryFileSize with
        | none => (false, fs, [])
        | some (hdr, freeMap2) =>
          let newDirectory :=
            ((Directory.empty.Add "." sector EntryType.DIR_TYPE).2.Add ".."
              parentSector EntryType.DIR_TYPE).2
          let events := [WriteEvent.hdr sector hdr,
                         WriteEvent.dir sector newDirectory,
                         WriteEvent.dir parentSector parentDirectory1,
                         WriteEvent.fmap freeMap2]
          (true, { fs with disk := fs.disk.applyEvents events }, events)

/-- `FileSystem::Create` (lines 517–610).  Every failure arm returns
before any write; on success the header, the directory and the bitmap
are persisted, in that order. -/
def FileSystem.Create (fs : FileSystem) (name : Option String)
    (initialSize : Int) : Bool × FileSystem × List WriteEvent :=
  match name with
  | none => (false, fs, [])
  | some n =>
    if n = "" then (false, fs, [])
    else if initialSize < 0 then (false, fs, [])
    else if NumSectors ≤ fs.curDir then (false, fs, [])
    else
      let directory := fs.disk.getDir fs.curDir
      match directory.FindEntry n with
      | some _ => (false, fs, [])
      | none =>
        match fs.disk.fmap.Find with
        | none => (false, fs, [])
        | some (sector, freeMap1) =>
          match directory.Add n sector EntryType.FILE_TYPE with
          | (false, _) => (false, fs, [])
          | (true, directory1) =>
            match FileHeader.Allocate freeMap1 initialSize.toNat with
            | none => (false, fs, [])
            | some (hdr, freeMap2) =>
              let events := [WriteEvent.hdr sector hdr,
                             WriteEvent.dir fs.curDir directory1,
                             WriteEvent.fmap freeMap2]
              (true, { fs with disk := fs.disk.applyEvents events }, events)

/-- `FileSystem::Open` (lines 636–704).  A null name is rendered as
`none`; the `strncpy` bound keeps 31 characters of the name. -/
def FileSystem.Open (fs : FileSystem) (name : Option String) :
    Int × FileSystem :=
  match name with
  | none => (INVALID_FILE_HANDLE, fs)
  | some n =>
    if n = "" then (INVALID_FILE_HANDLE, fs)
    else
      let directory := fs.disk.getDir fs.curDir
      match directory.FindEntry n with
      | none => (INVALID_FILE_HANDLE, fs)
      | some e =>
        match findOpenIdx (e.sector : Int) fs.openFilesTable with
        | some i => ((i : Int), fs)
        | none =>
          match findFreeIdx fs.openFilesTable with
          | none => (INVALID_FILE_HANDLE, fs)
          | some h =>
            ((h : Int), { fs with openFilesTable :=
              fs.openFilesTable.set h ⟨true, false, (e.sector : Int), n.take 31, 0⟩ })

/-- `FileSystem::Remove` (lines 720–798): deallocate the data sectors,
clear the header sector, drop the directory entry, persist bitmap and
directory, in that order. -/
def FileSystem.Remove (fs : FileSystem) (name : Option String) :
    Bool × FileSystem × List WriteEvent :=
  match name with
  | none => (false, fs, [])
  | some n =>
    if n = "" then (false, fs, [])
    else if NumSectors ≤ fs.curDir then (false, fs, [])
    else
      let directory := fs.disk.getDir fs.curDir
      match directory.Find n with
      | none => (false, fs, [])
      | some sector =>
        let fileHdr := fs.disk.getHdr sector
        let freeMap1 := fileHdr.Deallocate fs.disk.fmap
        let freeMap2 := freeMap1.Clear sector
        let directory1 := (directory.Remove n).2
        let events := [WriteEvent.fmap freeMap2,
                       WriteEvent.dir fs.curDir directory1]
        (true, { fs with disk := fs.disk.applyEvents events }, events)

/-! ## Helper lemmas: the allocator undoes cleanly -/

theorem firstClear_set_false {l : List Bool} {i : Nat} (h : firstClear l = some i) :
    l.set i false = l := by
  induction l generalizing i with
  | nil => simp [firstClear] at h
  | cons b rest ih =>
    cases b with
    | false =>
      simp only [firstClear, Option.some.injEq] at h
      subst h
      simp
    | true =>
      simp only [firstClear, Option.map_eq_some'] at h
      obtain ⟨j, hj, rfl⟩ := h
      simp [ih hj]

theorem Find_Clear {b b' : BitMap} {i : Nat} (h : b.Find = some (i, b')) :
    b'.Clear i = b := by
  unfold BitMap.Find at h
  cases hfc : firstClear b.bits with
  | none => rw [hfc] at h; simp at h
  | some j =>
    rw [hfc] at h
    simp only [Option.some.injEq, Prod.mk.injEq] at h
    obtain ⟨h1, h2⟩ := h
    subst h1
    subst h2
    unfold BitMap.Clear BitMap.Mark
    rw [List.set_set, firstClear_set_false hfc]

theorem Clear_comm (b : BitMap) (i j : Nat) :
    (b.Clear i).Clear j = (b.Clear j).Clear i := by
  unfold BitMap.Clear
  by_cases h : i = j
  · subst h; rfl
  · rw [List.set_comm _ _ _ h]

theorem ClearList_Clear (l : List Nat) (b : BitMap) (i : Nat) :
    (b.Clear i).ClearList l = (b.ClearList l).Clear i := by
  induction l generalizing b with
  | nil => rfl
  | cons j rest ih =>
    show ((b.Clear i).Clear j).ClearList rest = _
    rw [Clear_comm b i j, ih (b.Clear j)]
    rfl

theorem FindList_ClearList {b b' : BitMap} {l : List Nat} {n : Nat}
    (h : b.FindList n = some (l, b')) : b'.ClearList l = b := by
  induction n generalizing b l with
  | zero =>
    unfold BitMap.FindList at h
    simp only [Option.some.injEq, Prod.mk.injEq] at h
    obtain ⟨h1, h2⟩ := h
    subst h1
    subst h2
    rfl
  | succ m ih =>
    unfold BitMap.FindList at h
    cases hf : b.Find with
    | none =>
      simp only [hf] at h
      exact Option.noConfusion h
    | some p =>
      obtain ⟨i, b1⟩ := p
      simp only [hf] at h
      cases hfl : b1.FindList m with
      | none =>
        simp only [hfl] at h
        exact Option.noConfusion h
      | some q =>
        obtain ⟨l1, b2⟩ := q
        simp only [hfl, Option.some.injEq, Prod.mk.injEq] at h
        obtain ⟨h1, h2⟩ := h
        subst h1
        subst h2
        show (b2.Clear i).ClearList l1 = b
        rw [ClearList_Clear, ih hfl, Find_Clear hf]

theorem Allocate_Deallocate {fm fm' : BitMap} {hdr : FileHeader} {sz : Nat}
    (h : FileHeader.Allocate fm sz = some (hdr, fm')) :
    hdr.Deallocate fm' = fm := by
  unfold FileHeader.Allocate at h
  split at h
  · simp at h
  · cases hfl : fm.FindList (divRoundUp sz SectorSize) with
    | none =>
      simp only [hfl] at h
      exact Option.noConfusion h
    | some p =>
      obtain ⟨l, fm2⟩ := p
      simp only [hfl, Option.some.injEq, Prod.mk.injEq] at h
      obtain ⟨h1, h2⟩ := h
      subst h1
      subst h2
      exact FindList_ClearList hfl

/-! ## Helper lemmas: directories -/

theorem findEntryAux_addAux {n : String} {s : Nat} {t : EntryType}
    {es es' : List DirectoryEntry}
    (hfe : findEntryAux n es = none) (ha : addAux n s t es = some es') :
    findEntryAux n es' = some ⟨true, n, s, t⟩ := by
  induction es generalizing es' with
  | nil => simp [addAux] at ha
  | cons e rest ih =>
    by_cases hc : e.inUse = true ∧ e.name = n
    · simp [findEntryAux, hc] at hfe
    · rw [findEntryAux, if_neg hc] at hfe
      by_cases hu : e.inUse = true
      · rw [addAux, if_pos hu, Option.map_eq_some'] at ha
        obtain ⟨l', hl', rfl⟩ := ha
        rw [findEntryAux, if_neg hc]
        exact ih hfe hl'
      · rw [addAux, if_neg hu, Option.some.injEq] at ha
        subst ha
        simp [findEntryAux]

theorem Add_true_inv {d d1 : Directory} {n : String} {s : Nat} {t : EntryType}
    (h : d.Add n s t = (true, d1)) :
    d.FindEntry n = none ∧
      ∃ es, addAux n s t d.entries = some es ∧ d1 = ⟨es⟩ := by
  unfold Directory.Add at h
  cases hfe : d.FindEntry n with
  | some e => rw [hfe] at h; simp at h
  | none =>
    rw [hfe] at h
    cases ha : addAux n s t d.entries with
    | none => simp only [ha] at h; simp at h
    | some es =>
      simp only [ha, Prod.mk.injEq, true_and] at h
      exact ⟨rfl, es, rfl, h.symm⟩

theorem Add_FindEntry {d d1 : Directory} {n : String} {s : Nat} {t : EntryType}
    (h : d.Add n s t = (true, d1)) :
    d1.FindEntry n = some ⟨true, n, s, t⟩ := by
  obtain ⟨hfe, es, ha, hd⟩ := Add_true_inv h
  subst hd
  exact findEntryAux_addAux hfe ha

/-! ## Helper lemmas: inverting the controller's operations -/

/-- A `Create` that reports failure did nothing: same state, no writes. -/
theorem Create_false_inv {fs fs' : FileSystem} {name : Option String}
    {sz : Int} {ev : List WriteEvent}
    (h : fs.Create name sz = (false, fs', ev)) : fs' = fs ∧ ev = [] := by
  unfold FileSystem.Create at h
  repeat' (first | (split at h) | simp_all)

/-- Full characterization of a successful `Create`. -/
theorem Create_true_inv {fs fs1 : FileSystem} {n : String} {sz : Int}
    {ev : List WriteEvent}
    (h : fs.Create (some n) sz = (true, fs1, ev)) :
    ∃ sector freeMap1 directory1 hdr freeMap2,
      n ≠ "" ∧ ¬ sz < 0 ∧ fs.curDir < NumSectors ∧
      (fs.disk.getDir fs.curDir).FindEntry n = none ∧
      fs.disk.fmap.Find = some (sector, freeMap1) ∧
      (fs.disk.getDir fs.curDir).Add n sector EntryType.FILE_TYPE =
        (true, directory1) ∧
      FileHeader.Allocate freeMap1 sz.toNat = some (hdr, freeMap2) ∧
      ev = [WriteEvent.hdr sector hdr, WriteEvent.dir fs.curDir directory1,
            WriteEvent.fmap freeMap2] ∧
      fs1 = { fs with disk := fs.disk.applyEvents ev } := by
  unfold FileSystem.Create at h
  dsimp only at h
  by_cases hn : n = ""
  · rw [if_pos hn] at h; simp at h
  rw [if_neg hn] at h
  by_cases hsz : sz < 0
  · rw [if_pos hsz] at h; simp at h
  rw [if_neg hsz] at h
  by_cases hcur : NumSectors ≤ fs.curDir
  · rw [if_pos hcur] at h; simp at h
  rw [if_neg hcur] at h
  cases hfe : (fs.disk.getDir fs.curDir).FindEntry n with
  | some e => simp only [hfe] at h; simp at h
  | none =>
  simp only [hfe] at h
  cases hfind : fs.disk.fmap.Find with
  | none => simp only [hfind] at h; simp at h
  | some p =>
  obtain ⟨sector, freeMap1⟩ := p
  simp only [hfind] at h
  cases hadd : (fs.disk.getDir fs.curDir).Add n sector EntryType.FILE_TYPE with
  | mk ok directory1 =>
  cases ok with
  | false => simp only [hadd] at h; simp at h
  | true =>
  simp only [hadd] at h
  cases halloc : FileHeader.Allocate freeMap1 sz.toNat with
  | none => simp only [halloc] at h; simp at h
  | some q =>
  obtain ⟨hdr, freeMap2⟩ := q
  simp only [halloc] at h
  simp only [Prod.mk.injEq, true_and] at h
  obtain ⟨hfs1, hev⟩ := h
  rw [hev] at hfs1
  exact ⟨sector, freeMap1, directory1, hdr, freeMap2, hn, hsz,
    Nat.lt_of_not_le hcur, rfl, rfl, hadd, halloc, hev.symm, hfs1.symm⟩

/-- C2: whenever `Create(name, size)` succeeds in the current directory, an
immediate `Remove(name)` (no intervening allocations) succeeds and the
persisted free-space map returns to exactly its state before the `Create`:
the header sector and every data sector the `Create` allocated are cleared
and no other bit changes (full equality of the bit vector). -/
theorem create_then_remove_restores_freemap {fs fs1 : FileSystem} {n : String}
    {sz : Int} {ev : List WriteEvent}
    (h : fs.Create (some n) sz = (true, fs1, ev)) :
    (fs1.Remove (some n)).1 = true ∧
    (fs1.Remove (some n)).2.1.disk.fmap = fs.disk.fmap := by
  obtain ⟨sector, fm1, dir1, hdr, fm2, hn, hsz, hcur, hfe, hfind, hadd, halloc,
    hev, hfs1⟩ := Create_true_inv h
  subst hev
  subst hfs1
  have hcur2 : ¬ NumSectors ≤ fs.curDir := Nat.not_le.mpr hcur
  have hgd : (fs.disk.applyEvents
      [WriteEvent.hdr sector hdr, WriteEvent.dir fs.curDir dir1,
       WriteEvent.fmap fm2]).getDir fs.curDir = dir1 := by
    simp [Disk.applyEvents, Disk.applyEvent, Disk.getDir, lookupA]
  have hgh : (fs.disk.applyEvents
      [WriteEvent.hdr sector hdr, WriteEvent.dir fs.curDir dir1,
       WriteEvent.fmap fm2]).getHdr sector = hdr := by
    simp [Disk.applyEvents, Disk.applyEvent, Disk.getHdr, lookupA]
  have hfm : (fs.disk.applyEvents
      [WriteEvent.hdr sector hdr, WriteEvent.dir fs.curDir dir1,
       WriteEvent.fmap fm2]).fmap = fm2 := rfl
  have hdirfind : dir1.Find n = some sector := by
    unfold Directory.Find
    rw [Add_FindEntry hadd]
    rfl
  constructor
  · simp only [FileSystem.Remove, hn, hcur2, hgd, hdirfind, hgh, hfm,
      if_false, ite_false]
  · have hgd2 : (Disk.mk fm2 ((fs.curDir, dir1) :: fs.disk.dirs)
        ((sector, hdr) :: fs.disk.hdrs)).getDir fs.curDir = dir1 := by
      simp [Disk.getDir, lookupA]
    have hgh2 : (Disk.mk fm2 ((fs.curDir, dir1) :: fs.disk.dirs)
        ((sector, hdr) :: fs.disk.hdrs)).getHdr sector = hdr := by
      simp [Disk.getHdr, lookupA]
    simp only [FileSystem.Remove, hn, hcur2, Disk.applyEvents, Disk.applyEvent,
      List.foldl, if_false, ite_false, hgd2, hdirfind, hgh2]
    rw [Allocate_Deallocate halloc, Find_Clear hfind]

/-- C2 witness: on a freshly formatted device, `Create "f" 100` succeeds and
`Remove "f"` restores the persisted free-space map exactly. -/
theorem create_then_remove_restores_freemap_witness :
    (((FileSystem.boot true Disk.blank).Create (some "f") 100).2.1.Remove
      (some "f")).1 = true ∧
    (((FileSystem.boot true Disk.blank).Create (some "f") 100).2.1.Remove
      (some "f")).2.1.disk.fmap = (FileSystem.boot true Disk.blank).disk.fmap :=
  @create_then_remove_restores_freemap (FileSystem.boot true Disk.blank)
    ((FileSystem.boot true Disk.blank).Create (some "f") 100).2.1 "f" 100
    ((FileSystem.boot true Disk.blank).Create (some "f") 100).2.2 (by decide)

/-- C1: every `Create` call that returns failure — null or empty name,
negative size, invalid current sector, name already present, no free header
sector, directory full, or data allocation failure — issues no write: the
post state equals the pre state and the write trace is empty, so the
persisted free-space map, current directory and file headers are untouched. -/
theorem create_failure_writes_nothing {fs fs1 : FileSystem}
    {name : Option String} {sz : Int} {ev : List WriteEvent}
    (h : fs.Create name sz = (false, fs1, ev)) :
    fs1 = fs ∧ ev = [] ∧ fs1.disk = fs.disk :=
  have h2 := Create_false_inv h
  ⟨h2.1, h2.2, by rw [h2.1]⟩

/-- C1 witness: a duplicate-name `Create` on the formatted device fails,
changes nothing and writes nothing. -/
theorem create_failure_writes_nothing_witness :
    ((FileSystem.boot true Disk.blank).Create (some ".") 5).2.1 =
      FileSystem.boot true Disk.blank ∧
    ((FileSystem.boot true Disk.blank).Create (some ".") 5).2.2 = [] ∧
    ((FileSystem.boot true Disk.blank).Create (some ".") 5).2.1.disk =
      (FileSystem.boot true Disk.blank).disk :=
  @create_failure_writes_nothing (FileSystem.boot true Disk.blank)
    ((FileSystem.boot true Disk.blank).Create (some ".") 5).2.1 (some ".") 5
    ((FileSystem.boot true Disk.blank).Create (some ".") 5).2.2 (by decide)

/-- C3: if the name is already present as an entry of the current
directory, `Create` with that name returns failure, whatever the requested
size (including negative sizes, which fail the earlier size check). -/
theorem create_duplicate_name_fails (fs : FileSystem) (n : String) (sz : Int)
    (hdup : (fs.disk.getDir fs.curDir).FindEntry n ≠ none) :
    (fs.Create (some n) sz).1 = false := by
  rcases hc : fs.Create (some n) sz with ⟨b, fs1, ev⟩
  cases b with
  | false => rfl
  | true =>
    exfalso
    obtain ⟨s, f1, d1, hd, f2, hn, hsz, hcur, hfe, rest⟩ := Create_true_inv hc
    exact hdup hfe

/-- C3 witness: "." is present in the freshly formatted root, so creating
"." again fails. -/
theorem create_duplicate_name_fails_witness :
    ((FileSystem.boot true Disk.blank).disk.getDir
      (FileSystem.boot true Disk.blank).curDir).FindEntry "." ≠ none ∧
    ((FileSystem.boot true Disk.blank).Create (some ".") 100).1 = false :=
  ⟨by decide, create_duplicate_name_fails (FileSystem.boot true Disk.blank)
    "." 100 (by decide)⟩

/-! ## Helper lemmas: the open-file table -/

theorem findOpenIdx_eq {s : Int} {tbl : List OpenFileSlot} {i : Nat}
    {slot : OpenFileSlot}
    (hi : tbl[i]? = some slot) (hu : slot.inUse = true)
    (hs : slot.sector = s)
    (huniq : ∀ j (hj : j < tbl.length), (tbl.get ⟨j, hj⟩).inUse = true →
      (tbl.get ⟨j, hj⟩).sector = s → j = i) :
    findOpenIdx s tbl = some i := by
  induction tbl generalizing i with
  | nil => simp at hi
  | cons e rest ih =>
    cases i with
    | zero =>
      simp only [List.getElem?_cons_zero, Option.some.injEq] at hi
      subst hi
      rw [findOpenIdx, if_pos ⟨hu, hs⟩]
    | succ j =>
      simp only [List.getElem?_cons_succ] at hi
      have hne : ¬ (e.inUse = true ∧ e.sector = s) := by
        rintro ⟨h1, h2⟩
        have h0 : (0 : Nat) < (e :: rest).length := by simp
        have h3 := huniq 0 h0 (by simpa using h1) (by simpa using h2)
        exact Nat.succ_ne_zero j h3.symm
      rw [findOpenIdx, if_neg hne]
      have hrec : findOpenIdx s rest = some j := by
        apply ih hi
        intro k hk hk1 hk2
        have hk3 : k + 1 < (e :: rest).length := by
          simpa using Nat.succ_lt_succ hk
        have h4 := huniq (k + 1) hk3 (by simpa using hk1) (by simpa using hk2)
        omega
      rw [hrec]
      rfl

theorem updateSlot_getElem {tbl : List OpenFileSlot} {i : Nat}
    {slot : OpenFileSlot} (f : OpenFileSlot → OpenFileSlot)
    (hi : tbl[i]? = some slot) :
    (updateSlot tbl i f)[i]? = some (f slot) := by
  unfold updateSlot
  rw [hi]
  have hlen : i < tbl.length := by
    by_contra hge
    rw [List.getElem?_eq_none (Nat.le_of_not_lt hge)] at hi
    exact Option.noConfusion hi
  rw [List.getElem?_set_self hlen]

/-- C4: when some in-use slot already references the sector a name
resolves to (and, per the table invariant, it is the only such slot),
`Open` returns that slot's handle and leaves the whole state — occupancy
and every slot — unchanged. -/
theorem open_already_open_returns_existing_handle {fs : FileSystem}
    {n : String} {e : DirectoryEntry} {i : Nat} {slot : OpenFileSlot}
    (hn : n ≠ "")
    (he : (fs.disk.getDir fs.curDir).FindEntry n = some e)
    (hi : fs.openFilesTable[i]? = some slot)
    (hu : slot.inUse = true) (hs : slot.sector = (e.sector : Int))
    (huniq : ∀ j (hj : j < fs.openFilesTable.length),
      (fs.openFilesTable.get ⟨j, hj⟩).inUse = true →
      (fs.openFilesTable.get ⟨j, hj⟩).sector = (e.sector : Int) → j = i) :
    fs.Open (some n) = ((i : Int), fs) := by
  unfold FileSystem.Open
  dsimp only
  rw [if_neg hn]
  simp only [he, findOpenIdx_eq hi hu hs huniq]

/-- C4 witness: after opening "." on the formatted device, opening "."
again returns handle 0 and the same state. -/
theorem open_already_open_returns_existing_handle_witness :
    ((FileSystem.boot true Disk.blank).Open (some ".")).2.Open (some ".") =
      ((0 : Int), ((FileSystem.boot true Disk.blank).Open (some ".")).2) :=
  @open_already_open_returns_existing_handle
    ((FileSystem.boot true Disk.blank).Open (some ".")).2 "."
    ⟨true, ".", 1, EntryType.DIR_TYPE⟩ 0 ⟨true, false, 1, ".", 0⟩
    (by decide) (by decide) (by decide) (by decide) (by decide) (by decide)

/-- C8: `Open` of a name absent from the current directory returns the
invalid-handle sentinel and consumes no table slot: the state, hence every
slot's `inUse`, `sector` and cursor, is unchanged. -/
theorem open_missing_name_consumes_no_slot (fs : FileSystem) (n : String)
    (hmiss : (fs.disk.getDir fs.curDir).FindEntry n = none) :
    fs.Open (some n) = (INVALID_FILE_HANDLE, fs) := by
  unfold FileSystem.Open
  dsimp only
  by_cases hn : n = ""
  · rw [if_pos hn]
  · rw [if_neg hn]
    simp only [hmiss]

/-- C8 witness: `Open "missing"` on the formatted device. -/
theorem open_missing_name_consumes_no_slot_witness :
    ((FileSystem.boot true Disk.blank).disk.getDir
      (FileSystem.boot true Disk.blank).curDir).FindEntry "missing" = none ∧
    (FileSystem.boot true Disk.blank).Open (some "missing") =
      (INVALID_FILE_HANDLE, FileSystem.boot true Disk.blank) :=
  ⟨by decide, open_missing_name_consumes_no_slot
    (FileSystem.boot true Disk.blank) "missing" (by decide)⟩

/-- C9: with an invalid handle or a null buffer, each of `Read`, `Write`,
`ReadAt` and `WriteAt` returns 0 bytes transferred and leaves every
open-file-table slot unchanged (the functions are total: no hard fault). -/
theorem io_invalid_handle_or_null_buffer_returns_zero (fs : FileSystem)
    (file : Int) (bufNull : Bool) (numBytes position ioBytes : Int)
    (hbad : fs.IsValidHandle file = false ∨ bufNull = true) :
    fs.Read file bufNull numBytes ioBytes = (0, fs) ∧
    fs.Write file bufNull numBytes ioBytes = (0, fs) ∧
    fs.ReadAt file bufNull numBytes position ioBytes = (0, fs) ∧
    fs.WriteAt file bufNull numBytes position ioBytes = (0, fs) := by
  unfold FileSystem.Read FileSystem.Write FileSystem.ReadAt FileSystem.WriteAt
  rcases hbad with hbad | hbad
  · simp [hbad]
  · subst hbad
    by_cases hv : fs.IsValidHandle file = false <;> simp [hv]

/-- C9 witness: handle 3 is invalid on the formatted device (nothing is
open), so all four operations return 0 and change nothing. -/
theorem io_invalid_handle_or_null_buffer_returns_zero_witness :
    (FileSystem.boot true Disk.blank).IsValidHandle 3 = false ∧
    ((FileSystem.boot true Disk.blank).Read 3 false 10 7 =
        (0, FileSystem.boot true Disk.blank) ∧
      (FileSystem.boot true Disk.blank).Write 3 false 10 7 =
        (0, FileSystem.boot true Disk.blank) ∧
      (FileSystem.boot true Disk.blank).ReadAt 3 false 10 5 7 =
        (0, FileSystem.boot true Disk.blank) ∧
      (FileSystem.boot true Disk.blank).WriteAt 3 false 10 5 7 =
        (0, FileSystem.boot true Disk.blank)) :=
  ⟨by decide, io_invalid_handle_or_null_buffer_returns_zero
    (FileSystem.boot true Disk.blank) 3 false 10 5 7 (Or.inl (by decide))⟩

/-- C10: for a valid handle and a non-null buffer, `ReadAt` returns the
bytes transferred and adds them to the slot's `currentPosition`, while
`WriteAt` returns them and leaves the state — in particular the slot's
`currentPosition` — entirely unchanged. -/
theorem readAt_advances_cursor_writeAt_does_not {fs : FileSystem}
    {file : Int} {slot : OpenFileSlot} (numBytes position ioBytes : Int)
    (hv : fs.IsValidHandle file = true)
    (hslot : fs.openFilesTable[file.toNat]? = some slot) :
    (fs.ReadAt file false numBytes position ioBytes).1 = ioBytes ∧
    (fs.ReadAt file false numBytes position
        ioBytes).2.openFilesTable[file.toNat]? =
      some { slot with currentPosition := slot.currentPosition + ioBytes } ∧
    fs.WriteAt file false numBytes position ioBytes = (ioBytes, fs) := by
  unfold FileSystem.ReadAt FileSystem.WriteAt
  simp only [hv, Bool.true_eq_false, if_false, ite_false, Bool.false_eq_true]
  exact ⟨trivial, updateSlot_getElem _ hslot, trivial⟩

/-- C10 witness: with "." open at handle 0, `ReadAt` of 7 bytes moves the
cursor from 0 to 7 while `WriteAt` leaves the state unchanged. -/
theorem readAt_advances_cursor_writeAt_does_not_witness :
    ((FileSystem.boot true Disk.blank).Open (some ".")).2.IsValidHandle 0 =
      true ∧
    ((((FileSystem.boot true Disk.blank).Open (some ".")).2.ReadAt 0 false 10 3
        7).1 = 7 ∧
      (((FileSystem.boot true Disk.blank).Open (some ".")).2.ReadAt 0 false 10
          3 7).2.openFilesTable[(0 : Int).toNat]? =
        some ⟨true, false, 1, ".", 7⟩ ∧
      ((FileSystem.boot true Disk.blank).Open (some ".")).2.WriteAt 0 false 10
          3 7 =
        (7, ((FileSystem.boot true Disk.blank).Open (some ".")).2)) :=
  ⟨by decide, @readAt_advances_cursor_writeAt_does_not
    ((FileSystem.boot true Disk.blank).Open (some ".")).2 0
    ⟨true, false, 1, ".", 0⟩ 10 3 7 (by decide) (by decide)⟩

/-- C6: after constructing the file system with `format = true` on a blank
device, the persisted free-space map has the bits of sector 0 (bitmap-file
header) and sector 1 (root-directory-file header) set, and the persisted
root directory holds exactly the two active entries "." and "..", both
mapping to the root directory's own sector. -/
theorem format_bootstrap_state :
    (FileSystem.boot true Disk.blank).disk.fmap.Test FreeMapSector = true ∧
    (FileSystem.boot true Disk.blank).disk.fmap.Test DirectorySector = true ∧
    ((FileSystem.boot true
        Disk.blank).disk.getDir DirectorySector).activeEntries =
      [⟨true, ".", DirectorySector, EntryType.DIR_TYPE⟩,
       ⟨true, "..", DirectorySector, EntryType.DIR_TYPE⟩] := by
  decide

/-- The directory `CreateDirectory` seeds always holds exactly "." at the
new sector and ".." at the parent, both of directory type. -/
theorem newDirectory_activeEntries (s p : Nat) :
    (((Directory.empty.Add "." s EntryType.DIR_TYPE).2).Add ".." p
        EntryType.DIR_TYPE).2.activeEntries =
      [⟨true, ".", s, EntryType.DIR_TYPE⟩,
       ⟨true, "..", p, EntryType.DIR_TYPE⟩] := rfl

/-- C7: a successful `CreateDirectory` persists, in order, the new header,
the new directory's contents — exactly the two `DIR_TYPE` entries "."
(its own sector) and ".." (the parent's sector) — then the parent
directory carrying the new `name → sector` `DIR_TYPE` link, then the
bitmap; in particular the child's contents reach the device before the
linked parent directory does. -/
theorem createDirectory_seeds_child_then_parent {fs fs1 : FileSystem}
    {n : String} {ev : List WriteEvent}
    (h : fs.CreateDirectory n = (true, fs1, ev)) :
    ∃ sector parentDirectory1 hdr freeMap2,
      ev = [WriteEvent.hdr sector hdr,
            WriteEvent.dir sector
              (((Directory.empty.Add "." sector EntryType.DIR_TYPE).2).Add ".."
                fs.curDir EntryType.DIR_TYPE).2,
            WriteEvent.dir fs.curDir parentDirectory1,
            WriteEvent.fmap freeMap2] ∧
      (((Directory.empty.Add "." sector EntryType.DIR_TYPE).2).Add ".."
          fs.curDir EntryType.DIR_TYPE).2.activeEntries =
        [⟨true, ".", sector, EntryType.DIR_TYPE⟩,
         ⟨true, "..", fs.curDir, EntryType.DIR_TYPE⟩] ∧
      parentDirectory1.FindEntry n =
        some ⟨true, n, sector, EntryType.DIR_TYPE⟩ := by
  unfold FileSystem.CreateDirectory at h
  dsimp only at h
  cases hfe : (fs.disk.getDir fs.curDir).FindEntry n with
  | some e => simp only [hfe] at h; simp at h
  | none =>
  simp only [hfe] at h
  cases hfind : fs.disk.fmap.Find with
  | none => simp only [hfind] at h; simp at h
  | some p =>
  obtain ⟨sector, freeMap1⟩ := p
  simp only [hfind] at h
  cases hadd : (fs.disk.getDir fs.curDir).Add n sector EntryType.DIR_TYPE with
  | mk ok parentDirectory1 =>
  cases ok with
  | false => simp only [hadd] at h; simp at h
  | true =>
  simp only [hadd] at h
  cases halloc : FileHeader.Allocate freeMap1 DirectoryFileSize with
  | none => simp only [halloc] at h; simp at h
  | some q =>
  obtain ⟨hdr, freeMap2⟩ := q
  simp only [halloc] at h
  simp only [Prod.mk.injEq, true_and] at h
  exact ⟨sector, parentDirectory1, hdr, freeMap2, h.2.symm,
    newDirectory_activeEntries sector fs.curDir, Add_FindEntry hadd⟩

/-- C7 witness: `CreateDirectory "sub"` on the formatted device; the
persisted parent carries the new "sub" link. -/
theorem createDirectory_seeds_child_then_parent_witness :
    ∃ sector parentDirectory1 hdr freeMap2,
      ((FileSystem.boot true Disk.blank).CreateDirectory "sub").2.2 =
        [WriteEvent.hdr sector hdr,
         WriteEvent.dir sector
           (((Directory.empty.Add "." sector EntryType.DIR_TYPE).2).Add ".."
             (FileSystem.boot true Disk.blank).curDir EntryType.DIR_TYPE).2,
         WriteEvent.dir (FileSystem.boot true Disk.blank).curDir
           parentDirectory1,
         WriteEvent.fmap freeMap2] ∧
      (((Directory.empty.Add "." sector EntryType.DIR_TYPE).2).Add ".."
          (FileSystem.boot true Disk.blank).curDir EntryType.DIR_TYPE).2.activeEntries =
        [⟨true, ".", sector, EntryType.DIR_TYPE⟩,
         ⟨true, "..", (FileSystem.boot true Disk.blank).curDir,
          EntryType.DIR_TYPE⟩] ∧
      parentDirectory1.FindEntry "sub" =
        some ⟨true, "sub", sector, EntryType.DIR_TYPE⟩ :=
  @createDirectory_seeds_child_then_parent (FileSystem.boot true Disk.blank)
    ((FileSystem.boot true Disk.blank).CreateDirectory "sub").2.1 "sub"
    ((FileSystem.boot true Disk.blank).CreateDirectory "sub").2.2 (by decide)

/-- C5: with a current-directory sector in range, `ChangeDirectory(name)`
succeeds exactly when the name is non-null, non-empty, resolves in the
current directory to an entry of directory type, and the resolved sector is
in range; on success the context's current-directory sector becomes the
resolved sector (so "." keeps it in place), and on any failure the whole
state — in particular the current-directory sector — is unchanged. -/
theorem changeDirectory_success_iff (fs : FileSystem) (name : Option String)
    (hcur : fs.curDir < NumSectors) :
    ((fs.ChangeDirectory name).1 = true ↔
      ∃ n e, name = some n ∧ n ≠ "" ∧
        (fs.disk.getDir fs.curDir).FindEntry n = some e ∧
        e.type = EntryType.DIR_TYPE ∧ e.sector < NumSectors) ∧
    (∀ n e, name = some n →
      (fs.disk.getDir fs.curDir).FindEntry n = some e →
      (fs.ChangeDirectory name).1 = true →
      (fs.ChangeDirectory name).2 = { fs with curDir := e.sector }) ∧
    ((fs.ChangeDirectory name).1 = false → (fs.ChangeDirectory name).2 = fs) := by
  have hc2 : ¬ NumSectors ≤ fs.curDir := Nat.not_le.mpr hcur
  cases name with
  | none => simp [FileSystem.ChangeDirectory]
  | some n =>
    by_cases hn : n = ""
    · subst hn
      simp [FileSystem.ChangeDirectory]
    · cases hfe : (fs.disk.getDir fs.curDir).FindEntry n with
      | none => simp [FileSystem.ChangeDirectory, hn, hc2, hfe]
      | some e =>
        by_cases ht : e.type = EntryType.DIR_TYPE
        · by_cases hsec : e.sector < NumSectors
          · simp [FileSystem.ChangeDirectory, hn, hc2, hfe, ht, hsec]
            intro n1 e1 hn1 hfe1
            subst hn1
            rw [hfe] at hfe1
            injection hfe1 with h1
            rw [h1]
          · simp [FileSystem.ChangeDirectory, hn, hc2, hfe, ht, hsec]
        · simp [FileSystem.ChangeDirectory, hn, hc2, hfe, ht]

/-- C5 witness: on the formatted device (current sector 1, in range),
`ChangeDirectory "."` satisfies the characterization — it succeeds and the
current-directory sector stays 1. -/
theorem changeDirectory_success_iff_witness :
    (FileSystem.boot true Disk.blank).curDir < NumSectors ∧
    ((((FileSystem.boot true Disk.blank).ChangeDirectory (some ".")).1 =
        true ↔
      ∃ n e, (some "." : Option String) = some n ∧ n ≠ "" ∧
        ((FileSystem.boot true Disk.blank).disk.getDir
          (FileSystem.boot true Disk.blank).curDir).FindEntry n = some e ∧
        e.type = EntryType.DIR_TYPE ∧ e.sector < NumSectors) ∧
    (∀ n e, (some "." : Option String) = some n →
      ((FileSystem.boot true Disk.blank).disk.getDir
        (FileSystem.boot true Disk.blank).curDir).FindEntry n = some e →
      ((FileSystem.boot true Disk.blank).ChangeDirectory (some ".")).1 =
        true →
      ((FileSystem.boot true Disk.blank).ChangeDirectory (some ".")).2 =
        { FileSystem.boot true Disk.blank with curDir := e.sector }) ∧
    (((FileSystem.boot true Disk.blank).ChangeDirectory (some ".")).1 =
        false →
      ((FileSystem.boot true Disk.blank).ChangeDirectory (some ".")).2 =
        FileSystem.boot true Disk.blank)) :=
  ⟨by decide, changeDirectory_success_iff (FileSystem.boot true Disk.blank)
    (some ".") (by decide)⟩
